import Mathlib

/-!
# Verification of the Orion linear-transform evaluator core

A shallow embedding of `orion/backend/python/lt_evaluator.py` and
`orion/backend/python/encryptor.py`, together with proofs of the spec's
claims about them.

Modelling conventions:
* The HDF5 diagonals file is an association list from layer-name strings to
  `CacheEntry` records; group/dataset keys are the literal strings the code
  writes (`f"{row}_{col}"`, `str(diag_idx)`), and loading re-parses them.
* `h5py.Group.create_dataset` / `create_group` raise when the name already
  exists; this is modelled by `Except.error`.  Partial on-disk state left
  behind by a raised exception is not modelled: every theorem below is about
  the raised-versus-returned distinction and the success-path result.
* Real values are modelled as `Rat`; `torch.allclose` is modelled with its
  default tolerances `rtol = 1e-5`, `atol = 1e-8`.
* The opaque backend capability is a function parameter of each operation
  that consumes it.
-/

/-! ## Decimal keys

Python writes block keys with `f"{row}_{col}"` and diagonal keys with
`str(diag_idx)`, and reads them back with `int`.  The block and diagonal
indices produced by the compile stage are nonnegative, so the keys are plain
decimal numerals.  `natToChars` is the decimal numeral of a `Nat` (fuel-based
structural recursion so that the kernel can evaluate it), `charsToNat` is
the numeral parser, and `splitOnChar` is Python's `str.split` with a
one-character separator. -/

def natToCharsAux : Nat → Nat → List Char
  | 0, _ => []
  | fuel + 1, n =>
    if n < 10 then [Nat.digitChar n]
    else natToCharsAux fuel (n / 10) ++ [Nat.digitChar (n % 10)]

def natToChars (n : Nat) : List Char :=
  natToCharsAux (n + 1) n

/-- Decimal representation of a `Nat`, as written by Python's `str`. -/
def natRepr (n : Nat) : String :=
  String.mk (natToChars n)

/-- The `f"{row}_{col}"` key of a diagonal block. -/
def blockKey (row col : Nat) : String :=
  String.mk (natToChars row ++ '_' :: natToChars col)

/-- Python's `int` on a string holding a nonnegative decimal numeral
(`none` models the `ValueError` raised on anything else). -/
def charsToNat : List Char → Option Nat
  | [] => none
  | c :: cs =>
    if (c :: cs).all Char.isDigit then
      some ((c :: cs).foldl (fun a d => a * 10 + (d.toNat - 48)) 0)
    else none

/-- Python's `str.split` with a single-character separator. -/
def splitOnChar (sep : Char) : List Char → List (List Char)
  | [] => [[]]
  | c :: cs =>
    if c = sep then [] :: splitOnChar sep cs
    else
      match splitOnChar sep cs with
      | [] => [[c]]
      | p :: ps => (c :: p) :: ps

/-- `row, col = map(int, block.split("_"))` from `load_transforms`. -/
def parseBlockKey (s : String) : Option (Nat × Nat) :=
  match splitOnChar '_' s.data with
  | [a, b] =>
    match charsToNat a, charsToNat b with
    | some r, some c => some (r, c)
    | _, _ => none
  | _ => none

/-! ## Data model

`LinearLayer` is the layer descriptor produced by the (excluded) compile
stage, with the attributes `lt_evaluator.py` reads.  `linear_layer.scheme.
params.get_embedding_method()` is the `scheme_embed_method` field.
`output_rotations` is modelled as an integer and `bsgs` stands for the
source's `bsgs_ratio` parameter; both are passed through opaquely.
`TensorR` is a torch tensor of reals (shape plus row-major data). -/

structure TensorR where
  shape : List Nat
  data : List Rat
deriving DecidableEq

structure LinearLayer where
  name : String
  diagonals : List ((Nat × Nat) × List (Nat × List Rat))
  level : Nat
  bsgs : Rat
  input_shape : List Nat
  output_shape : List Nat
  fhe_output_shape : List Nat
  on_bias : TensorR
  output_rotations : Int
  input_min : Rat
  input_max : Rat
  output_min : Rat
  output_max : Rat
  transform_ids : List ((Nat × Nat) × Nat)
  scheme_embed_method : String
deriving DecidableEq

/-- One layer group of the HDF5 diagonals file: the scalar metadata datasets
plus the `diagonals/` group, whose members are keyed by the literal strings
written by `save_transforms`.  (The reserved `plaintexts/` group holds no
data that this core reads and is omitted.) -/
structure CacheEntry where
  embedding_method : String
  output_rotations : Int
  on_bias : TensorR
  input_shape : List Nat
  output_shape : List Nat
  input_min : Rat
  input_max : Rat
  output_min : Rat
  output_max : Rat
  diagonals : List (String × List (String × List Rat))
deriving DecidableEq

/-- The HDF5 file at `diags_path`: one root group per layer name. -/
abbrev Store := List (String × CacheEntry)

/-- The evaluator's own configuration, read from `scheme.params` in
`NewEvaluator.__init__`. -/
structure NewEvaluator where
  embed_method : String
  io_mode : String
  diags_path : String
  keys_path : String
deriving DecidableEq

/-- Modelled from the spec: `orion/backend/python/tensors.py` is not part of
the sources; per §3, a `CipherTensor` wraps an ordered sequence of backend
ids plus a logical `shape` and a packed `on_shape`. -/
structure CipherTensor where
  ids : List Nat
  shape : List Nat
  on_shape : List Nat
deriving DecidableEq

/-- Modelled from the spec: `orion/backend/python/tensors.py` is not part of
the sources; per §3, a `PlainTensor` wraps an ordered sequence of backend
ids plus a logical `shape` and a packed `on_shape`. -/
structure PlainTensor where
  ids : List Nat
  shape : List Nat
  on_shape : List Nat
deriving DecidableEq

/-! ## torch.allclose -/

def ratAbs (q : Rat) : Rat := if q < 0 then -q else q

/-- `torch.allclose` with the default tolerances `rtol = 1e-5`,
`atol = 1e-8`: elementwise `|input - other| <= atol + rtol * |other|`.
The shapes are compared by the caller before this is evaluated. -/
def allclose (curr last : List Rat) : Bool :=
  curr.length == last.length &&
  (curr.zip last).all fun p =>
    decide (ratAbs (p.1 - p.2) ≤ 1 / 100000000 + 1 / 100000 * ratAbs p.2)

/-! ## The error messages of `_verify_layer_compatibility` -/

/-- The `ValueError` text raised when the layer is absent from the file. -/
def missingMsg (layer_name diags_path : String) : String :=
  "Layer '" ++ layer_name ++ "' not found in file " ++ diags_path ++ ". " ++
  "First set IO mode in parameters YAML file to `save`."

/-- `", ".join(mismatches)`. -/
def joinComma : List String → String
  | [] => ""
  | [s] => s
  | s :: rest => s ++ ", " ++ joinComma rest

/-- The `ValueError` text raised when metadata fields differ. -/
def incompatibleMsg (mismatches : List String) : String :=
  "Saved network does not match currently instantiated network: " ++
  joinComma mismatches ++
  ". First set IO mode in parameters YAML file to `save` to " ++
  "override existing data. Then loading will work."

/-- The mismatch collection loop of `_verify_layer_compatibility`, in source
order: bias shape (else bias values), output rotations, input shape, output
shape, embedding method, and the four range statistics. -/
def collectMismatches (layer : LinearLayer) (entry : CacheEntry) : List String :=
  (if layer.on_bias.shape = entry.on_bias.shape then
    (if allclose layer.on_bias.data entry.on_bias.data then []
     else ["on_bias: values mismatch"])
   else ["on_bias: shape mismatch"])
  ++ (if layer.output_rotations = entry.output_rotations then []
      else ["output_rotations mismatch"])
  ++ (if layer.input_shape = entry.input_shape then []
      else ["input_shape mismatch"])
  ++ (if layer.output_shape = entry.output_shape then []
      else ["output_shape mismatch"])
  ++ (if layer.scheme_embed_method = entry.embedding_method then []
      else ["embedding_method mismatch"])
  ++ (if layer.input_min = entry.input_min then []
      else ["input_min mismatch"])
  ++ (if layer.input_max = entry.input_max then []
      else ["input_max mismatch"])
  ++ (if layer.output_min = entry.output_min then []
      else ["output_min mismatch"])
  ++ (if layer.output_max = entry.output_max then []
      else ["output_max mismatch"])

/-- `NewEvaluator._verify_layer_compatibility`. -/
def verify_layer_compatibility (ev : NewEvaluator) (store : Store)
    (layer : LinearLayer) : Except String Unit :=
  match store.lookup layer.name with
  | none => .error (missingMsg layer.name ev.diags_path)
  | some entry =>
    let ms := collectMismatches layer entry
    if ms = [] then .ok () else .error (incompatibleMsg ms)

/-! ## `save_transforms`

`h5py` raises when `create_group`/`create_dataset` is given a name that
already exists, so writing a layer group that is already present in the file
fails on its first `create_dataset`, and duplicate block or diagonal keys
fail inside the loop. -/

def existsMsg : String := "unable to create dataset (name already exists)"

def existsGroupMsg : String := "unable to create group (name already exists)"

/-- The inner loop of `save_transforms`: one `create_dataset(str(diag_idx),
data=diag_data, ...)` per diagonal, in insertion order. -/
def buildBlockGroup (acc : List (String × List Rat)) :
    List (Nat × List Rat) → Except String (List (String × List Rat))
  | [] => .ok acc
  | (idx, data) :: rest =>
    if (acc.map Prod.fst).contains (natRepr idx) then .error existsMsg
    else buildBlockGroup (acc ++ [(natRepr idx, data)]) rest

/-- The outer loop of `save_transforms`: one
`diags_group.create_group(f"{row}_{col}")` per block, in insertion order. -/
def buildDiagGroups (acc : List (String × List (String × List Rat))) :
    List ((Nat × Nat) × List (Nat × List Rat)) →
    Except String (List (String × List (String × List Rat)))
  | [] => .ok acc
  | ((row, col), diags) :: rest =>
    if (acc.map Prod.fst).contains (blockKey row col) then .error existsGroupMsg
    else
      match buildBlockGroup [] diags with
      | .error e => .error e
      | .ok g => buildDiagGroups (acc ++ [(blockKey row col, g)]) rest

/-- `NewEvaluator.save_transforms`.  Returns the updated file contents and
the updated layer descriptor: the Python code mutates `diags[diag_idx] = []`
after writing each diagonal ("delete after saving").  An existing layer
group of the same name makes the first `create_dataset` raise. -/
def save_transforms (ev : NewEvaluator) (store : Store) (layer : LinearLayer) :
    Except String (Store × LinearLayer) :=
  if (store.lookup layer.name).isSome then .error existsMsg
  else
    match buildDiagGroups [] layer.diagonals with
    | .error e => .error e
    | .ok dgs =>
      let entry : CacheEntry :=
        { embedding_method := ev.embed_method
          output_rotations := layer.output_rotations
          on_bias := layer.on_bias
          input_shape := layer.input_shape
          output_shape := layer.output_shape
          input_min := layer.input_min
          input_max := layer.input_max
          output_min := layer.output_min
          output_max := layer.output_max
          diagonals := dgs }
      let emptied :=
        layer.diagonals.map fun b => (b.1, b.2.map fun d => (d.1, ([] : List Rat)))
      .ok (store ++ [(layer.name, entry)], { layer with diagonals := emptied })

/-! ## `load_transforms` -/

/-- The inner reconstruction loop: `diags[int(diag_idx)] = diag_data`. -/
def parseBlockDiags (acc : List (Nat × List Rat)) :
    List (String × List Rat) → Except String (List (Nat × List Rat))
  | [] => .ok acc
  | (key, data) :: rest =>
    match charsToNat key.data with
    | none => .error ("invalid literal for int() with base 10: " ++ key)
    | some idx => parseBlockDiags (acc ++ [(idx, data)]) rest

/-- The outer reconstruction loop: `row, col = map(int, block.split("_"))`
then `all_diagonals[(row, col)] = diags`. -/
def parseAllDiagonals (acc : List ((Nat × Nat) × List (Nat × List Rat))) :
    List (String × List (String × List Rat)) →
    Except String (List ((Nat × Nat) × List (Nat × List Rat)))
  | [] => .ok acc
  | (bk, g) :: rest =>
    match parseBlockKey bk with
    | none => .error ("invalid literal for int() with base 10: " ++ bk)
    | some rc =>
      match parseBlockDiags [] g with
      | .error e => .error e
      | .ok diags => parseAllDiagonals (acc ++ [(rc, diags)]) rest

/-- `NewEvaluator.load_transforms`: verify compatibility first, then rebuild
the diagonal mapping from the file; the bias and rotations of the returned
triple are the in-memory layer's `on_bias` and `output_rotations`. -/
def load_transforms (ev : NewEvaluator) (store : Store) (layer : LinearLayer) :
    Except String ((List ((Nat × Nat) × List (Nat × List Rat))) × TensorR × Int) :=
  match verify_layer_compatibility ev store layer with
  | .error e => .error e
  | .ok _ =>
    match store.lookup layer.name with
    | none => .error ("KeyError: " ++ layer.name)
    | some entry =>
      match parseAllDiagonals [] entry.diagonals with
      | .error e => .error e
      | .ok all_diagonals => .ok (all_diagonals, layer.on_bias, layer.output_rotations)

/-! ## `generate_transforms` and `evaluate_transforms` -/

/-- The argument record of the backend's `GenerateLinearTransform`. -/
structure GenArgs where
  diag_idxs : List Nat
  diag_data : List Rat
  level : Nat
  bsgs : Rat
  row : Nat
  col : Nat
  layer_name : String
  diags_path : String
  keys_path : String
  io_mode : String

/-- The per-block flattening of `generate_transforms`:
`diags_idxs.append(idx)` and `diags_data.extend(diag)` in insertion order. -/
def flattenBlock (diags : List (Nat × List Rat)) : List Nat × List Rat :=
  diags.foldl (fun p d => (p.1 ++ [d.1], p.2 ++ d.2)) ([], [])

/-- `NewEvaluator.generate_transforms`, with the backend's
`GenerateLinearTransform` as the opaque function `gen`. -/
def generate_transforms (ev : NewEvaluator) (gen : GenArgs → Nat)
    (layer : LinearLayer) : List ((Nat × Nat) × Nat) :=
  layer.diagonals.foldl
    (fun acc b =>
      let fl := flattenBlock b.2
      acc ++ [(b.1, gen
        { diag_idxs := fl.1
          diag_data := fl.2
          level := layer.level
          bsgs := layer.bsgs
          row := b.1.1
          col := b.1.2
          layer_name := layer.name
          diags_path := ev.diags_path
          keys_path := ev.keys_path
          io_mode := ev.io_mode })])
    []

/-- The argument record of the backend's `EvaluateLinearTransforms`. -/
structure EvalArgs where
  transform_ids : List Nat
  input_ids : List Nat
  layer_name : String
  diags_path : String
  keys_path : String
  io_mode : String

/-- `NewEvaluator.evaluate_transforms`, with the backend's
`EvaluateLinearTransforms` as the opaque function `evalLT`:
the transform ids are flattened in the insertion order of the
`(row, col) -> id` mapping, and the result is wrapped with the layer's
`output_shape` and `fhe_output_shape`. -/
def evaluate_transforms (ev : NewEvaluator) (evalLT : EvalArgs → List Nat)
    (layer : LinearLayer) (in_ctensor : CipherTensor) : CipherTensor :=
  { ids := evalLT
      { transform_ids := layer.transform_ids.map Prod.snd
        input_ids := in_ctensor.ids
        layer_name := layer.name
        diags_path := ev.diags_path
        keys_path := ev.keys_path
        io_mode := ev.io_mode }
    shape := layer.output_shape
    on_shape := layer.fhe_output_shape }

/-! ## `NewEncryptor` -/

/-- `NewEncryptor.encrypt`, with the backend's `Encrypt` primitive as the
opaque function `enc`: one call per id, in order. -/
def encrypt (enc : Nat → Nat) (plaintensor : PlainTensor) : CipherTensor :=
  { ids := plaintensor.ids.foldl (fun acc p => acc ++ [enc p]) []
    shape := plaintensor.shape
    on_shape := plaintensor.on_shape }

/-- `NewEncryptor.decrypt`, with the backend's `Decrypt` primitive as the
opaque function `dec`: one call per id, in order. -/
def decrypt (dec : Nat → Nat) (ciphertensor : CipherTensor) : PlainTensor :=
  { ids := ciphertensor.ids.foldl (fun acc c => acc ++ [dec c]) []
    shape := ciphertensor.shape
    on_shape := ciphertensor.on_shape }


/-! ## Derived views and concrete instances

`diagTriples` flattens a diagonal mapping into its set of
`(block coordinate, diagonal index, data)` triples, the view under which
the save/load round trip is compared (the HDF5 group iteration order is an
implementation detail, so the comparison is membership-based).

The `...W` definitions are a small concrete evaluator, layer and file
contents used to instantiate the theorems below: `entryW` is exactly the
cache entry `save_transforms` writes for `layerW` under `evW`, `layerW2` is
`layerW` after its diagonal payloads are emptied by the save, `layerW_mm`
is `layerW` with two metadata fields perturbed, and `entryC10` is `entryW`
with the stored bias changed by `1e-9` — different from the layer's bias
but within `allclose` tolerance. -/

def diagTriples (d : List ((Nat × Nat) × List (Nat × List Rat))) :
    List ((Nat × Nat) × Nat × List Rat) :=
  (d.map fun b => b.2.map fun dd => (b.1, dd.1, dd.2)).flatten

/-- The cache entry a successful `save_transforms` writes for `layer`. -/
def savedEntry (ev : NewEvaluator) (layer : LinearLayer) : CacheEntry :=
  { embedding_method := ev.embed_method
    output_rotations := layer.output_rotations
    on_bias := layer.on_bias
    input_shape := layer.input_shape
    output_shape := layer.output_shape
    input_min := layer.input_min
    input_max := layer.input_max
    output_min := layer.output_min
    output_max := layer.output_max
    diagonals := layer.diagonals.map fun b =>
      (blockKey b.1.1 b.1.2, b.2.map fun d => (natRepr d.1, d.2)) }

/-- The layer descriptor after `save_transforms` has emptied each diagonal
payload in place. -/
def emptiedLayer (layer : LinearLayer) : LinearLayer :=
  { layer with diagonals :=
      (layer.diagonals.map fun b =>
        (b.1, b.2.map fun d => (d.1, ([] : List Rat)))) }

def evW : NewEvaluator :=
  { embed_method := "hybrid"
    io_mode := "save"
    diags_path := "diags.h5"
    keys_path := "keys.h5" }

def layerW : LinearLayer :=
  { name := "fc1"
    diagonals := [((0, 0), [(0, [1, 2]), (1, [3])]), ((1, 2), [(5, [4])])]
    level := 3
    bsgs := 2
    input_shape := [4]
    output_shape := [4]
    fhe_output_shape := [1, 4]
    on_bias := { shape := [4], data := [0, 1, 0, 1] }
    output_rotations := 0
    input_min := -1
    input_max := 1
    output_min := -2
    output_max := 2
    transform_ids := [((0, 0), 7), ((1, 2), 8)]
    scheme_embed_method := "hybrid" }

def entryW : CacheEntry :=
  { embedding_method := "hybrid"
    output_rotations := 0
    on_bias := { shape := [4], data := [0, 1, 0, 1] }
    input_shape := [4]
    output_shape := [4]
    input_min := -1
    input_max := 1
    output_min := -2
    output_max := 2
    diagonals := [("0_0", [("0", [1, 2]), ("1", [3])]), ("1_2", [("5", [4])])] }

def storeW : Store := [("fc1", entryW)]

def layerW2 : LinearLayer :=
  { layerW with diagonals := [((0, 0), [(0, []), (1, [])]), ((1, 2), [(5, [])])] }

def layerW_mm : LinearLayer :=
  { layerW with output_rotations := 1, input_min := -3 }

def entryC10 : CacheEntry :=
  { entryW with on_bias := { shape := [4], data := [0, 1, 0, 1 + 1 / 1000000000] } }

def storeC10 : Store := [("fc1", entryC10)]

def ptW : PlainTensor := { ids := [10, 11], shape := [2], on_shape := [1, 2] }

def ctW : CipherTensor := { ids := [20, 21], shape := [2], on_shape := [1, 2] }

theorem natToCharsAux_fuel {f₁ f₂ n : Nat} (h₁ : n < f₁) (h₂ : n < f₂) :
    natToCharsAux f₁ n = natToCharsAux f₂ n := by
  induction f₁ generalizing f₂ n with
  | zero => omega
  | succ g ih =>
    match f₂, h₂ with
    | h + 1, _ =>
      by_cases hn : n < 10
      · simp [natToCharsAux, hn]
      · have hpos : 0 < n := by omega
        have hdiv : n / 10 < n := Nat.div_lt_self hpos (by omega)
        simp only [natToCharsAux, hn, if_false]
        rw [@ih h (n / 10) (by omega) (by omega)]

theorem natToChars_eq (n : Nat) :
    natToChars n =
      if n < 10 then [Nat.digitChar n]
      else natToChars (n / 10) ++ [Nat.digitChar (n % 10)] := by
  by_cases hn : n < 10
  · simp [natToChars, natToCharsAux, hn]
  · have hpos : 0 < n := by omega
    have hdiv : n / 10 < n := Nat.div_lt_self hpos (by omega)
    rw [if_neg hn]
    show natToCharsAux (n + 1) n = _
    simp only [natToCharsAux, hn, if_false]
    rw [@natToCharsAux_fuel n (n / 10 + 1) (n / 10) hdiv (Nat.lt_succ_self _)]
    rfl

theorem digitChar_isDigit {m : Nat} (h : m < 10) :
    (Nat.digitChar m).isDigit = true := by
  interval_cases m <;> decide

theorem digitChar_toNat {m : Nat} (h : m < 10) :
    (Nat.digitChar m).toNat - 48 = m := by
  interval_cases m <;> decide

theorem natToChars_ne_nil (n : Nat) : natToChars n ≠ [] := by
  rw [natToChars_eq]
  split <;> simp

theorem natToChars_all_digits (n : Nat) :
    ∀ c ∈ natToChars n, c.isDigit = true := by
  induction n using Nat.strong_induction_on with
  | _ n ih =>
    rw [natToChars_eq]
    by_cases hn : n < 10
    · simp only [hn, if_true, List.mem_singleton]
      rintro c rfl
      exact digitChar_isDigit hn
    · have hpos : 0 < n := by omega
      have hdiv : n / 10 < n := Nat.div_lt_self hpos (by omega)
      simp only [hn, if_false, List.mem_append, List.mem_singleton]
      rintro c (hc | rfl)
      · exact ih _ hdiv c hc
      · exact digitChar_isDigit (Nat.mod_lt _ (by omega))

theorem foldDigits_natToChars (n : Nat) :
    ∀ a : Nat,
      (natToChars n).foldl (fun a d => a * 10 + (d.toNat - 48)) a =
        a * 10 ^ (natToChars n).length + n := by
  induction n using Nat.strong_induction_on with
  | _ n ih =>
    intro a
    rw [natToChars_eq]
    by_cases hn : n < 10
    · simp only [hn, if_true, List.foldl_cons, List.foldl_nil, List.length_singleton,
        pow_one]
      rw [digitChar_toNat hn]
    · have hpos : 0 < n := by omega
      have hdiv : n / 10 < n := Nat.div_lt_self hpos (by omega)
      simp only [hn, if_false, List.foldl_append, List.foldl_cons, List.foldl_nil,
        List.length_append, List.length_singleton]
      rw [ih _ hdiv a, digitChar_toNat (Nat.mod_lt _ (by omega)), pow_succ,
        ← mul_assoc]
      set M := a * 10 ^ (natToChars (n / 10)).length
      have hmod := Nat.div_add_mod n 10
      omega

theorem charsToNat_natToChars (n : Nat) :
    charsToNat (natToChars n) = some n := by
  have hne := natToChars_ne_nil n
  have hdig := natToChars_all_digits n
  match hmk : natToChars n with
  | [] => exact absurd hmk hne
  | c :: cs =>
    have hall : (c :: cs).all Char.isDigit = true := by
      rw [List.all_eq_true]
      intro x hx
      exact hdig x (hmk ▸ hx)
    simp only [charsToNat, hall, if_true, Option.some.injEq]
    have := foldDigits_natToChars n 0
    rw [hmk] at this
    simpa using this

theorem splitOnChar_no_sep {sep : Char} {l : List Char}
    (h : ∀ c ∈ l, c ≠ sep) : splitOnChar sep l = [l] := by
  induction l with
  | nil => rfl
  | cons c cs ih =>
    have hc : c ≠ sep := h c (List.mem_cons_self _ _)
    have hcs := ih (fun x hx => h x (List.mem_cons_of_mem _ hx))
    simp [splitOnChar, hc, hcs]

theorem splitOnChar_append {sep : Char} {a b : List Char}
    (h : ∀ c ∈ a, c ≠ sep) :
    splitOnChar sep (a ++ sep :: b) = a :: splitOnChar sep b := by
  induction a with
  | nil => simp [splitOnChar]
  | cons c cs ih =>
    have hc : c ≠ sep := h c (List.mem_cons_self _ _)
    have hcs := ih (fun x hx => h x (List.mem_cons_of_mem _ hx))
    simp [List.cons_append, splitOnChar, hc, hcs]

theorem natToChars_no_underscore (n : Nat) :
    ∀ c ∈ natToChars n, c ≠ '_' := by
  intro c hc he
  have h2 := natToChars_all_digits n c hc
  rw [he] at h2
  exact absurd h2 (by decide)

theorem parseBlockKey_blockKey (r c : Nat) :
    parseBlockKey (blockKey r c) = some (r, c) := by
  have hsplit :
      splitOnChar '_' (natToChars r ++ '_' :: natToChars c) =
        [natToChars r, natToChars c] := by
    rw [splitOnChar_append (natToChars_no_underscore r),
      splitOnChar_no_sep (natToChars_no_underscore c)]
  simp [parseBlockKey, blockKey, hsplit, charsToNat_natToChars]

theorem ratAbs_nonneg (q : Rat) : 0 ≤ ratAbs q := by
  unfold ratAbs
  split <;> linarith

theorem mem_zip_self {α : Type} {p : α × α} :
    ∀ {l : List α}, p ∈ l.zip l → p.1 = p.2 := by
  intro l
  induction l with
  | nil => intro hp; simp at hp
  | cons x xs ih =>
    intro hp
    rw [List.zip_cons_cons, List.mem_cons] at hp
    rcases hp with h | h
    · rw [h]
    · exact ih h

theorem allclose_self (l : List Rat) : allclose l l = true := by
  unfold allclose
  rw [Bool.and_eq_true, beq_iff_eq, List.all_eq_true]
  refine ⟨rfl, fun p hp => ?_⟩
  rw [decide_eq_true_iff]
  rw [mem_zip_self hp, sub_self]
  have h2 : ratAbs 0 = 0 := by norm_num [ratAbs]
  rw [h2]
  have h3 : (0:Rat) ≤ 1 / 100000 * ratAbs p.2 :=
    mul_nonneg (by norm_num) (ratAbs_nonneg _)
  linarith

theorem strData_append (a b : String) : (a ++ b).data = a.data ++ b.data := by
  cases a
  cases b
  rfl

theorem infix_extend {α : Type} {l m : List α} (h : l <:+: m) (a b : List α) :
    l <:+: a ++ m ++ b := by
  obtain ⟨s, t, rfl⟩ := h
  exact ⟨a ++ s, t ++ b, by simp⟩

theorem lookup_append_fresh {β : Type} (l : List (String × β)) (k : String)
    (v : β) (h : l.lookup k = none) : (l ++ [(k, v)]).lookup k = some v := by
  induction l with
  | nil => simp [List.lookup]
  | cons p ps ih =>
    obtain ⟨a, b⟩ := p
    rw [List.lookup] at h
    rw [List.cons_append, List.lookup]
    cases hk : (k == a) with
    | true => rw [hk] at h; cases h
    | false => rw [hk] at h; exact ih h

theorem lookup_append_other {β : Type} (l : List (String × β)) (k n : String)
    (v : β) (h : n ≠ k) : (l ++ [(k, v)]).lookup n = l.lookup n := by
  induction l with
  | nil =>
    have hk : (n == k) = false := by simp [h]
    simp [List.lookup, hk]
  | cons p ps ih =>
    obtain ⟨a, b⟩ := p
    rw [List.cons_append, List.lookup, List.lookup]
    cases hk : (n == a) with
    | true => rfl
    | false => exact ih

theorem foldl_append_map {α β : Type} (l : List α) (f : α → β) :
    ∀ acc : List β, l.foldl (fun a x => a ++ [f x]) acc = acc ++ l.map f := by
  induction l with
  | nil => intro acc; simp
  | cons x xs ih =>
    intro acc
    rw [List.foldl_cons, ih, List.map_cons]
    simp

theorem flattenBlock_foldl (ds : List (Nat × List Rat)) :
    ∀ acc : List Nat × List Rat,
      ds.foldl (fun p d => (p.1 ++ [d.1], p.2 ++ d.2)) acc =
        (acc.1 ++ ds.map Prod.fst, acc.2 ++ (ds.map Prod.snd).flatten) := by
  induction ds with
  | nil => intro acc; simp
  | cons d ds ih =>
    intro acc
    rw [List.foldl_cons, ih]
    simp

theorem flattenBlock_eq (ds : List (Nat × List Rat)) :
    flattenBlock ds = (ds.map Prod.fst, (ds.map Prod.snd).flatten) := by
  simpa [flattenBlock] using flattenBlock_foldl ds ([], [])

/-- Claim C5: `generate_transforms` visits every block of `layer.diagonals`,
flattens each block's diagonal mapping into the parallel index/data
sequences in insertion order, hands them to the backend together with the
level, bsgs ratio, block coordinates, layer name and cache locations/IO
mode, and returns exactly one transform id per block, keyed like the
input. -/
theorem claim_C5_generate_transforms (ev : NewEvaluator) (gen : GenArgs → Nat)
    (layer : LinearLayer) :
    generate_transforms ev gen layer =
      layer.diagonals.map (fun b =>
        (b.1, gen
          ⟨b.2.map Prod.fst, (b.2.map Prod.snd).flatten, layer.level,
           layer.bsgs, b.1.1, b.1.2, layer.name, ev.diags_path,
           ev.keys_path, ev.io_mode⟩))
    ∧ (generate_transforms ev gen layer).map Prod.fst =
        layer.diagonals.map Prod.fst
    ∧ (generate_transforms ev gen layer).length = layer.diagonals.length := by
  have hmain : generate_transforms ev gen layer =
      layer.diagonals.map (fun b =>
        (b.1, gen
          ⟨b.2.map Prod.fst, (b.2.map Prod.snd).flatten, layer.level,
           layer.bsgs, b.1.1, b.1.2, layer.name, ev.diags_path,
           ev.keys_path, ev.io_mode⟩)) := by
    unfold generate_transforms
    rw [foldl_append_map layer.diagonals (fun b =>
      (b.1, gen
        ⟨(flattenBlock b.2).1, (flattenBlock b.2).2, layer.level,
         layer.bsgs, b.1.1, b.1.2, layer.name, ev.diags_path,
         ev.keys_path, ev.io_mode⟩)) []]
    rw [List.nil_append]
    refine List.map_congr_left fun b _ => ?_
    rw [flattenBlock_eq]
  refine ⟨hmain, ?_, ?_⟩
  · rw [hmain, List.map_map]
    rfl
  · rw [hmain, List.length_map]

/-- Claim C6: `evaluate_transforms` passes the layer's transform ids to the
backend in the insertion order of the `(row, col) -> id` mapping and wraps
the returned ids with the layer's `output_shape` and `fhe_output_shape`;
two evaluations of the same layer and input (even under different backend
behaviours) produce outputs with identical `shape` and `on_shape`. -/
theorem claim_C6_evaluate_transforms (ev : NewEvaluator)
    (e₁ e₂ : EvalArgs → List Nat) (layer : LinearLayer)
    (in_ctensor : CipherTensor) :
    (evaluate_transforms ev e₁ layer in_ctensor).shape = layer.output_shape
    ∧ (evaluate_transforms ev e₁ layer in_ctensor).on_shape =
        layer.fhe_output_shape
    ∧ (evaluate_transforms ev e₁ layer in_ctensor).ids =
        e₁ ⟨layer.transform_ids.map Prod.snd, in_ctensor.ids, layer.name,
            ev.diags_path, ev.keys_path, ev.io_mode⟩
    ∧ (evaluate_transforms ev e₁ layer in_ctensor).shape =
        (evaluate_transforms ev e₂ layer in_ctensor).shape
    ∧ (evaluate_transforms ev e₁ layer in_ctensor).on_shape =
        (evaluate_transforms ev e₂ layer in_ctensor).on_shape :=
  ⟨rfl, rfl, rfl, rfl, rfl⟩

/-- Claim C7: `encrypt` and `decrypt` map the backend primitive one-to-one
over the id sequence, preserving order (position `i` of the output comes
from position `i` of the input) and leaving `shape` and `on_shape`
unchanged; hence both round trips preserve shape, packed shape, id count
and ordering on any non-empty tensor. -/
theorem claim_C7_encrypt_decrypt (enc dec : Nat → Nat)
    (plaintensor : PlainTensor) (ciphertensor : CipherTensor)
    (hpt : plaintensor.ids ≠ []) (hct : ciphertensor.ids ≠ []) :
    ((encrypt enc plaintensor).ids = plaintensor.ids.map enc
      ∧ (encrypt enc plaintensor).shape = plaintensor.shape
      ∧ (encrypt enc plaintensor).on_shape = plaintensor.on_shape
      ∧ ∀ i : Nat, (encrypt enc plaintensor).ids[i]? =
          (plaintensor.ids[i]?).map enc)
    ∧ ((decrypt dec ciphertensor).ids = ciphertensor.ids.map dec
      ∧ (decrypt dec ciphertensor).shape = ciphertensor.shape
      ∧ (decrypt dec ciphertensor).on_shape = ciphertensor.on_shape
      ∧ ∀ i : Nat, (decrypt dec ciphertensor).ids[i]? =
          (ciphertensor.ids[i]?).map dec)
    ∧ ((decrypt dec (encrypt enc plaintensor)).shape = plaintensor.shape
      ∧ (decrypt dec (encrypt enc plaintensor)).on_shape = plaintensor.on_shape
      ∧ (decrypt dec (encrypt enc plaintensor)).ids.length =
          plaintensor.ids.length
      ∧ (decrypt dec (encrypt enc plaintensor)).ids =
          plaintensor.ids.map fun i => dec (enc i))
    ∧ ((encrypt enc (decrypt dec ciphertensor)).shape = ciphertensor.shape
      ∧ (encrypt enc (decrypt dec ciphertensor)).on_shape =
          ciphertensor.on_shape
      ∧ (encrypt enc (decrypt dec ciphertensor)).ids.length =
          ciphertensor.ids.length
      ∧ (encrypt enc (decrypt dec ciphertensor)).ids =
          ciphertensor.ids.map fun i => enc (dec i)) := by
  have he : ∀ (f : Nat → Nat) (pt : PlainTensor),
      (encrypt f pt).ids = pt.ids.map f := by
    intro f pt
    unfold encrypt
    rw [foldl_append_map pt.ids f []]
    rfl
  have hd : ∀ (f : Nat → Nat) (ct : CipherTensor),
      (decrypt f ct).ids = ct.ids.map f := by
    intro f ct
    unfold decrypt
    rw [foldl_append_map ct.ids f []]
    rfl
  refine ⟨⟨he enc plaintensor, rfl, rfl, ?_⟩,
    ⟨hd dec ciphertensor, rfl, rfl, ?_⟩, ⟨rfl, rfl, ?_, ?_⟩, ⟨rfl, rfl, ?_, ?_⟩⟩
  · intro i
    rw [he enc plaintensor, List.getElem?_map]
  · intro i
    rw [hd dec ciphertensor, List.getElem?_map]
  · rw [hd dec (encrypt enc plaintensor), he enc plaintensor]
    simp
  · rw [hd dec (encrypt enc plaintensor), he enc plaintensor, List.map_map]
    rfl
  · rw [he enc (decrypt dec ciphertensor), hd dec ciphertensor]
    simp
  · rw [he enc (decrypt dec ciphertensor), hd dec ciphertensor, List.map_map]
    rfl

/-- Witness for C7 at a concrete non-empty pair of tensors. -/
theorem claim_C7_witness :
    (ptW.ids ≠ [] ∧ ctW.ids ≠ [])
    ∧ (encrypt (fun n => n + 100) ptW).ids = ptW.ids.map (fun n => n + 100) :=
  ⟨⟨by decide, by decide⟩,
    (claim_C7_encrypt_decrypt (fun n => n + 100) (fun n => n + 200) ptW ctW
      (by decide) (by decide)).1.1⟩

theorem buildBlockGroup_ok :
    ∀ (ds : List (Nat × List Rat)) (acc g : List (String × List Rat)),
      buildBlockGroup acc ds = .ok g →
      g = acc ++ ds.map fun d => (natRepr d.1, d.2) := by
  intro ds
  induction ds with
  | nil =>
    intro acc g h
    rw [buildBlockGroup] at h
    cases h
    simp
  | cons d rest ih =>
    intro acc g h
    obtain ⟨idx, data⟩ := d
    rw [buildBlockGroup] at h
    split at h
    · cases h
    · have := ih _ _ h
      rw [this]
      simp

theorem buildDiagGroups_ok :
    ∀ (l : List ((Nat × Nat) × List (Nat × List Rat)))
      (acc g : List (String × List (String × List Rat))),
      buildDiagGroups acc l = .ok g →
      g = acc ++ l.map fun b =>
        (blockKey b.1.1 b.1.2, b.2.map fun d => (natRepr d.1, d.2)) := by
  intro l
  induction l with
  | nil =>
    intro acc g h
    rw [buildDiagGroups] at h
    cases h
    simp
  | cons b rest ih =>
    intro acc g h
    obtain ⟨⟨row, col⟩, diags⟩ := b
    rw [buildDiagGroups] at h
    split at h
    · cases h
    · cases hb : buildBlockGroup [] diags with
      | error e => rw [hb] at h; cases h
      | ok inner =>
        rw [hb] at h
        have hrest := ih _ _ h
        have hinner := buildBlockGroup_ok diags [] inner hb
        rw [hrest, hinner]
        simp

theorem parseBlockDiags_roundtrip (ds : List (Nat × List Rat)) :
    ∀ acc : List (Nat × List Rat),
      parseBlockDiags acc (ds.map fun d => (natRepr d.1, d.2)) =
        .ok (acc ++ ds) := by
  induction ds with
  | nil => intro acc; simp [parseBlockDiags]
  | cons d rest ih =>
    intro acc
    obtain ⟨idx, data⟩ := d
    have hparse : charsToNat (natRepr idx).data = some idx :=
      charsToNat_natToChars idx
    rw [List.map_cons, parseBlockDiags]
    simp only [hparse, ih]
    simp

theorem parseAllDiagonals_roundtrip
    (l : List ((Nat × Nat) × List (Nat × List Rat))) :
    ∀ acc : List ((Nat × Nat) × List (Nat × List Rat)),
      parseAllDiagonals acc (l.map fun b =>
        (blockKey b.1.1 b.1.2, b.2.map fun d => (natRepr d.1, d.2))) =
        .ok (acc ++ l) := by
  induction l with
  | nil => intro acc; simp [parseAllDiagonals]
  | cons b rest ih =>
    intro acc
    obtain ⟨⟨row, col⟩, diags⟩ := b
    have hinner : parseBlockDiags [] (diags.map fun d => (natRepr d.1, d.2)) =
        Except.ok diags := by
      simpa using parseBlockDiags_roundtrip diags []
    rw [List.map_cons, parseAllDiagonals]
    simp only [parseBlockKey_blockKey, hinner, ih]
    simp

/-- Inversion of a successful `save_transforms`: the layer was absent from
the file, the new store appends the freshly written entry, and the returned
layer is the input with every diagonal payload emptied. -/
theorem save_transforms_ok {ev : NewEvaluator} {store : Store}
    {layer : LinearLayer} {store' : Store} {layer' : LinearLayer}
    (h : save_transforms ev store layer = .ok (store', layer')) :
    store.lookup layer.name = none
    ∧ store' = store ++ [(layer.name,
        { embedding_method := ev.embed_method
          output_rotations := layer.output_rotations
          on_bias := layer.on_bias
          input_shape := layer.input_shape
          output_shape := layer.output_shape
          input_min := layer.input_min
          input_max := layer.input_max
          output_min := layer.output_min
          output_max := layer.output_max
          diagonals := layer.diagonals.map fun b =>
            (blockKey b.1.1 b.1.2, b.2.map fun d => (natRepr d.1, d.2)) })]
    ∧ layer' = { layer with diagonals :=
        (layer.diagonals.map fun b =>
          (b.1, b.2.map fun d => (d.1, ([] : List Rat)))) } := by
  unfold save_transforms at h
  split at h
  · cases h
  · rename_i hs
    have hnone : store.lookup layer.name = none :=
      Option.not_isSome_iff_eq_none.mp hs
    cases hb : buildDiagGroups [] layer.diagonals with
    | error e => rw [hb] at h; cases h
    | ok dgs =>
      rw [hb] at h
      have hdgs : dgs = layer.diagonals.map fun b =>
          (blockKey b.1.1 b.1.2, b.2.map fun d => (natRepr d.1, d.2)) := by
        have := buildDiagGroups_ok layer.diagonals [] dgs hb
        simpa using this
      cases h
      exact ⟨hnone, by rw [hdgs], rfl⟩

/-- Claim C4: loading a layer name absent from the store fails with the
missing-layer error, which contains the layer name and the instruction to
switch the IO mode to `save`; no diagonal data is returned. -/
theorem claim_C4_missing_layer (ev : NewEvaluator) (store : Store)
    (layer : LinearLayer) (h : store.lookup layer.name = none) :
    load_transforms ev store layer =
      .error (missingMsg layer.name ev.diags_path)
    ∧ layer.name.data <:+: (missingMsg layer.name ev.diags_path).data
    ∧ ("First set IO mode in parameters YAML file to `save`.").data <:+:
        (missingMsg layer.name ev.diags_path).data
    ∧ ∀ result, load_transforms ev store layer ≠ .ok result := by
  have hv : verify_layer_compatibility ev store layer =
      .error (missingMsg layer.name ev.diags_path) := by
    rw [verify_layer_compatibility, h]
  have hload : load_transforms ev store layer =
      .error (missingMsg layer.name ev.diags_path) := by
    rw [load_transforms, hv]
  refine ⟨hload, ?_, ?_, ?_⟩
  · refine ⟨"Layer '".data,
      ("' not found in file " ++ ev.diags_path ++ ". " ++
        "First set IO mode in parameters YAML file to `save`.").data, ?_⟩
    simp [missingMsg, strData_append, List.append_assoc]
  · refine ⟨("Layer '" ++ layer.name ++ "' not found in file " ++
      ev.diags_path ++ ". ").data, [], ?_⟩
    simp [missingMsg, strData_append, List.append_assoc]
  · intro result hok
    rw [hload] at hok
    cases hok

/-- Witness for C4: a store that never saved `layerW`. -/
theorem claim_C4_witness :
    ((([] : Store).lookup layerW.name) = none)
    ∧ load_transforms evW ([] : Store) layerW =
        Except.error (missingMsg layerW.name evW.diags_path) :=
  ⟨rfl, (claim_C4_missing_layer evW [] layerW rfl).1⟩

/-- Claim C8 (amended): in save mode, `save_transforms` writes a fresh cache
entry when the layer name is absent (and leaves every other layer's entry
unchanged), but a layer name that already has a persisted entry makes it
fail — `create_dataset` raises on the existing name — instead of
overwriting. -/
theorem claim_C8_save_fresh (ev : NewEvaluator) (store : Store)
    (layer : LinearLayer) (store' : Store) (layer' : LinearLayer)
    (h : save_transforms ev store layer = .ok (store', layer')) :
    store.lookup layer.name = none
    ∧ store'.lookup layer.name = some
        { embedding_method := ev.embed_method
          output_rotations := layer.output_rotations
          on_bias := layer.on_bias
          input_shape := layer.input_shape
          output_shape := layer.output_shape
          input_min := layer.input_min
          input_max := layer.input_max
          output_min := layer.output_min
          output_max := layer.output_max
          diagonals := layer.diagonals.map fun b =>
            (blockKey b.1.1 b.1.2, b.2.map fun d => (natRepr d.1, d.2)) }
    ∧ (∀ n, n ≠ layer.name → store'.lookup n = store.lookup n)
    ∧ (∀ (st₂ : Store) (l₂ : LinearLayer) (e₂ : CacheEntry),
        st₂.lookup l₂.name = some e₂ →
        save_transforms ev st₂ l₂ = .error existsMsg) := by
  obtain ⟨h1, h2, -⟩ := save_transforms_ok h
  subst h2
  refine ⟨h1, lookup_append_fresh _ _ _ h1,
    fun n hn => lookup_append_other _ _ n _ hn, ?_⟩
  intro st₂ l₂ e₂ he
  unfold save_transforms
  have hsome : (st₂.lookup l₂.name).isSome := by rw [he]; rfl
  rw [if_pos hsome]

/-- Counterexample to C8 as stated: the store already holds a full entry
named `"fc1"`, and `save_transforms` for a layer of that name raises
instead of succeeding and overwriting. -/
theorem claim_C8_counterexample :
    save_transforms evW storeW layerW = Except.error existsMsg := by
  rfl

/-- Witness for C8 (amended) at a fresh store. -/
theorem claim_C8_witness :
    (save_transforms evW ([] : Store) layerW = Except.ok (storeW, layerW2))
    ∧ (([] : Store).lookup layerW.name) = none :=
  ⟨by rfl, (claim_C8_save_fresh evW [] layerW storeW layerW2 (by rfl)).1⟩

/-- Claim C9: after a successful `save_transforms`, every diagonal payload
of the layer's `diagonals` mapping has been emptied while its block
coordinates and diagonal indices, and every other field of the layer
descriptor, are unchanged. -/
theorem claim_C9_save_empties_payloads (ev : NewEvaluator) (store : Store)
    (layer : LinearLayer) (store' : Store) (layer' : LinearLayer)
    (h : save_transforms ev store layer = .ok (store', layer')) :
    layer'.diagonals = (layer.diagonals.map fun b =>
      (b.1, b.2.map fun d => (d.1, ([] : List Rat))))
    ∧ layer'.diagonals.map Prod.fst = layer.diagonals.map Prod.fst
    ∧ layer'.diagonals.map (fun b => (b.1, b.2.map Prod.fst)) =
        layer.diagonals.map (fun b => (b.1, b.2.map Prod.fst))
    ∧ (∀ b ∈ layer'.diagonals, ∀ d ∈ b.2, d.2 = [])
    ∧ layer'.name = layer.name
    ∧ layer'.on_bias = layer.on_bias
    ∧ layer'.output_rotations = layer.output_rotations
    ∧ layer'.input_shape = layer.input_shape
    ∧ layer'.output_shape = layer.output_shape
    ∧ layer'.fhe_output_shape = layer.fhe_output_shape
    ∧ layer'.input_min = layer.input_min
    ∧ layer'.input_max = layer.input_max
    ∧ layer'.output_min = layer.output_min
    ∧ layer'.output_max = layer.output_max
    ∧ layer'.level = layer.level
    ∧ layer'.bsgs = layer.bsgs
    ∧ layer'.transform_ids = layer.transform_ids
    ∧ layer'.scheme_embed_method = layer.scheme_embed_method := by
  obtain ⟨-, -, h3⟩ := save_transforms_ok h
  subst h3
  refine ⟨rfl, ?_, ?_, ?_, rfl, rfl, rfl, rfl, rfl, rfl, rfl, rfl, rfl, rfl,
    rfl, rfl, rfl, rfl⟩
  · simp [List.map_map]
  · simp [List.map_map]
  · intro b hb d hd
    simp only [List.mem_map] at hb
    obtain ⟨b₀, -, rfl⟩ := hb
    simp only [List.mem_map] at hd
    obtain ⟨d₀, -, rfl⟩ := hd
    rfl

/-- Witness for C9 at a concrete save. -/
theorem claim_C9_witness :
    (save_transforms evW ([] : Store) layerW = Except.ok (storeW, layerW2))
    ∧ layerW2.diagonals = (layerW.diagonals.map fun b =>
        (b.1, b.2.map fun d => (d.1, ([] : List Rat)))) :=
  ⟨by rfl, (claim_C9_save_empties_payloads evW [] layerW storeW layerW2
    (by rfl)).1⟩

/-- Claim C10: when `load_transforms` succeeds, the bias and rotations of
the returned triple are the in-memory layer's `on_bias` and
`output_rotations` attributes, not values re-read from the persisted
entry; only the diagonals component is reconstructed from storage. -/
theorem claim_C10_load_returns_layer_bias (ev : NewEvaluator) (store : Store)
    (layer : LinearLayer) (d : List ((Nat × Nat) × List (Nat × List Rat)))
    (b : TensorR) (r : Int)
    (h : load_transforms ev store layer = .ok (d, b, r)) :
    b = layer.on_bias ∧ r = layer.output_rotations := by
  rw [load_transforms] at h
  split at h
  · cases h
  · split at h
    · cases h
    · split at h
      · cases h
      · simp only [Except.ok.injEq, Prod.mk.injEq] at h
        exact ⟨h.2.1.symm, h.2.2.symm⟩

/-- Witness for C10: the persisted bias differs from the layer's by `1e-9`
(within `allclose` tolerance), yet the returned bias is the layer's. -/
theorem claim_C10_witness :
    (load_transforms evW storeC10 layerW =
      Except.ok (layerW.diagonals, layerW.on_bias, layerW.output_rotations))
    ∧ entryC10.on_bias ≠ layerW.on_bias
    ∧ (layerW.on_bias = layerW.on_bias
      ∧ layerW.output_rotations = layerW.output_rotations) :=
  ⟨by with_unfolding_all rfl, by
    intro hcontra
    have hdata : ([0, 1, 0, 1 + 1 / 1000000000] : List Rat) = [0, 1, 0, 1] :=
      congrArg TensorR.data hcontra
    injection hdata with h0 t1
    injection t1 with h1 t2
    injection t2 with h2 t3
    injection t3 with h4 t4
    norm_num at h4,
    claim_C10_load_returns_layer_bias evW storeC10 layerW layerW.diagonals
      layerW.on_bias layerW.output_rotations (by with_unfolding_all rfl)⟩

theorem joinComma_cons₂ (s : String) (s₂ : String) (rest : List String) :
    joinComma (s :: s₂ :: rest) = s ++ ", " ++ joinComma (s₂ :: rest) := rfl

theorem mem_joinComma {m : String} :
    ∀ {l : List String}, m ∈ l → m.data <:+: (joinComma l).data := by
  intro l
  induction l with
  | nil => intro h; cases h
  | cons s rest ih =>
    intro h
    cases rest with
    | nil =>
      rw [List.mem_singleton] at h
      subst h
      exact List.infix_refl _
    | cons s₂ rest₂ =>
      rw [List.mem_cons] at h
      rcases h with rfl | h
      · refine ⟨[], (", " ++ joinComma (s₂ :: rest₂)).data, ?_⟩
        rw [joinComma_cons₂]
        simp [strData_append, List.append_assoc]
      · obtain ⟨u, v, huv⟩ := ih h
        refine ⟨(s ++ ", ").data ++ u, v, ?_⟩
        rw [joinComma_cons₂, strData_append, strData_append, ← huv]
        simp [List.append_assoc]

/-- Claim C2 (amended): when one or more checked fields differ,
`_verify_layer_compatibility` does not stop at the first difference: it
fails with a single error built from the full mismatch collection, whose
text names every mismatched field and instructs switching the IO mode to
`save`; the error text does not, however, identify the layer. -/
theorem claim_C2_collects_all_mismatches (ev : NewEvaluator) (store : Store)
    (layer : LinearLayer) (entry : CacheEntry)
    (h1 : store.lookup layer.name = some entry)
    (h2 : collectMismatches layer entry ≠ []) :
    verify_layer_compatibility ev store layer =
      .error (incompatibleMsg (collectMismatches layer entry))
    ∧ (∀ m ∈ collectMismatches layer entry,
        m.data <:+: (incompatibleMsg (collectMismatches layer entry)).data)
    ∧ ("First set IO mode in parameters YAML file to `save`").data <:+:
        (incompatibleMsg (collectMismatches layer entry)).data := by
  refine ⟨?_, ?_, ?_⟩
  · rw [verify_layer_compatibility, h1]
    show (if collectMismatches layer entry = [] then (Except.ok ()) else _) = _
    rw [if_neg h2]
  · intro m hm
    have h5 := infix_extend (mem_joinComma hm)
      ("Saved network does not match currently instantiated network: ").data
      ((". First set IO mode in parameters YAML file to `save` to ").data ++
        ("override existing data. Then loading will work.").data)
    simpa [incompatibleMsg, strData_append, List.append_assoc] using h5
  · have hdec : ("First set IO mode in parameters YAML file to `save`").data <:+:
        (". First set IO mode in parameters YAML file to `save` to ").data := by
      decide
    have h5 := infix_extend hdec
      ("Saved network does not match currently instantiated network: " ++
        joinComma (collectMismatches layer entry)).data
      ("override existing data. Then loading will work.").data
    simpa [incompatibleMsg, strData_append, List.append_assoc] using h5

/-- Counterexample to C2 as stated: with two mismatched fields, the raised
error's text does not contain the layer's name (`"fc1"`), so the error does
not identify the layer. -/
theorem claim_C2_counterexample :
    verify_layer_compatibility evW storeW layerW_mm =
      Except.error (incompatibleMsg
        ["output_rotations mismatch", "input_min mismatch"])
    ∧ ¬ (layerW_mm.name.data <:+:
        (incompatibleMsg
          ["output_rotations mismatch", "input_min mismatch"]).data) := by
  constructor
  · with_unfolding_all rfl
  · set_option maxRecDepth 8000 in decide

/-- Witness for C2 (amended) at the concrete mismatching pair. -/
theorem claim_C2_witness :
    (storeW.lookup layerW_mm.name = some entryW
      ∧ collectMismatches layerW_mm entryW ≠ [])
    ∧ verify_layer_compatibility evW storeW layerW_mm =
        Except.error (incompatibleMsg (collectMismatches layerW_mm entryW)) :=
  ⟨⟨by rfl, by
      rw [show collectMismatches layerW_mm entryW =
        ["output_rotations mismatch", "input_min mismatch"] from by
          with_unfolding_all rfl]
      simp⟩,
    (claim_C2_collects_all_mismatches evW storeW layerW_mm entryW (by rfl)
      (by
        rw [show collectMismatches layerW_mm entryW =
          ["output_rotations mismatch", "input_min mismatch"] from by
            with_unfolding_all rfl]
        simp)).1⟩

theorem mem_ite_nil {c : Prop} [Decidable c] {s t : String} :
    (s ∈ if c then ([] : List String) else [t]) ↔ (¬c ∧ s = t) := by
  by_cases h : c <;> simp [h]

theorem mem_bias_seg {c₁ : Prop} [Decidable c₁] {c₂ : Bool} {s u v : String} :
    (s ∈ if c₁ then (if c₂ then ([] : List String) else [v]) else [u]) ↔
      ((¬c₁ ∧ s = u) ∨ (c₁ ∧ c₂ = false ∧ s = v)) := by
  by_cases h1 : c₁ <;> cases h2 : c₂ <;> simp [h1, h2]

/-- Claim C3: each of the ten checked fields is reported independently —
a field's mismatch string is in the collection exactly when that field
differs (for the bias values: when the shapes agree but the values are not
allclose), so perturbing exactly one field reports exactly that field. -/
theorem claim_C3_ten_fields (layer : LinearLayer) (entry : CacheEntry) :
    ("on_bias: shape mismatch" ∈ collectMismatches layer entry ↔
      layer.on_bias.shape ≠ entry.on_bias.shape)
    ∧ ("on_bias: values mismatch" ∈ collectMismatches layer entry ↔
      (layer.on_bias.shape = entry.on_bias.shape
        ∧ allclose layer.on_bias.data entry.on_bias.data = false))
    ∧ ("output_rotations mismatch" ∈ collectMismatches layer entry ↔
      layer.output_rotations ≠ entry.output_rotations)
    ∧ ("input_shape mismatch" ∈ collectMismatches layer entry ↔
      layer.input_shape ≠ entry.input_shape)
    ∧ ("output_shape mismatch" ∈ collectMismatches layer entry ↔
      layer.output_shape ≠ entry.output_shape)
    ∧ ("embedding_method mismatch" ∈ collectMismatches layer entry ↔
      layer.scheme_embed_method ≠ entry.embedding_method)
    ∧ ("input_min mismatch" ∈ collectMismatches layer entry ↔
      layer.input_min ≠ entry.input_min)
    ∧ ("input_max mismatch" ∈ collectMismatches layer entry ↔
      layer.input_max ≠ entry.input_max)
    ∧ ("output_min mismatch" ∈ collectMismatches layer entry ↔
      layer.output_min ≠ entry.output_min)
    ∧ ("output_max mismatch" ∈ collectMismatches layer entry ↔
      layer.output_max ≠ entry.output_max) := by
  refine ⟨?_, ?_, ?_, ?_, ?_, ?_, ?_, ?_, ?_, ?_⟩ <;>
    simp [collectMismatches, List.mem_append, mem_bias_seg, mem_ite_nil]

/-- Claim C1: saving a layer into a store that does not yet hold it and
loading it back succeeds and reproduces the diagonal mapping — the same
block coordinates (re-parsed from the `"{row}_{col}"` keys), the same
diagonal indices (re-parsed from their string keys) with the same data —
returns the layer's bias and rotations, persists identical
bias/rotation/shape/range metadata, and `load_transforms` propagates any
`verify_layer_compatibility` failure before reading diagonal data. -/
theorem claim_C1_save_load_roundtrip (ev : NewEvaluator) (store : Store)
    (layer : LinearLayer) (store' : Store) (layer' : LinearLayer)
    (hemb : ev.embed_method = layer.scheme_embed_method)
    (hsave : save_transforms ev store layer = .ok (store', layer')) :
    (∃ d, load_transforms ev store' layer' =
        .ok (d, layer.on_bias, layer.output_rotations)
      ∧ (∀ rc, rc ∈ d.map Prod.fst ↔ rc ∈ layer.diagonals.map Prod.fst)
      ∧ (∀ t, t ∈ diagTriples d ↔ t ∈ diagTriples layer.diagonals))
    ∧ (∃ e, store'.lookup layer.name = some e
      ∧ e.on_bias = layer.on_bias
      ∧ e.output_rotations = layer.output_rotations
      ∧ e.input_shape = layer.input_shape
      ∧ e.output_shape = layer.output_shape
      ∧ e.input_min = layer.input_min
      ∧ e.input_max = layer.input_max
      ∧ e.output_min = layer.output_min
      ∧ e.output_max = layer.output_max)
    ∧ (∀ (ev₂ : NewEvaluator) (st₂ : Store) (l₂ : LinearLayer) (err : String),
        verify_layer_compatibility ev₂ st₂ l₂ = .error err →
        load_transforms ev₂ st₂ l₂ = .error err) := by
  obtain ⟨h1, h2, h3⟩ := save_transforms_ok hsave
  have h2' : store' = store ++ [(layer.name, savedEntry ev layer)] := h2
  have h3' : layer' = emptiedLayer layer := h3
  subst h2' h3'
  have hlook : (store ++ [(layer.name, savedEntry ev layer)]).lookup
      layer.name = some (savedEntry ev layer) :=
    lookup_append_fresh _ _ _ h1
  have hlook' : (store ++ [(layer.name, savedEntry ev layer)]).lookup
      (emptiedLayer layer).name = some (savedEntry ev layer) := hlook
  have hcm : collectMismatches (emptiedLayer layer) (savedEntry ev layer)
      = [] := by
    simp [collectMismatches, emptiedLayer, savedEntry, allclose_self, hemb]
  have hver : verify_layer_compatibility ev
      (store ++ [(layer.name, savedEntry ev layer)]) (emptiedLayer layer) =
      .ok () := by
    rw [verify_layer_compatibility, hlook']
    show (if collectMismatches (emptiedLayer layer) (savedEntry ev layer) = []
      then (Except.ok ()) else _) = _
    rw [if_pos hcm]
  have hparse : parseAllDiagonals [] (savedEntry ev layer).diagonals =
      .ok layer.diagonals := by
    show parseAllDiagonals [] (layer.diagonals.map fun b =>
      (blockKey b.1.1 b.1.2, b.2.map fun d => (natRepr d.1, d.2))) = _
    simpa using parseAllDiagonals_roundtrip layer.diagonals []
  have hload : load_transforms ev
      (store ++ [(layer.name, savedEntry ev layer)]) (emptiedLayer layer) =
      .ok (layer.diagonals, layer.on_bias, layer.output_rotations) := by
    rw [load_transforms]
    simp only [hver, hlook', hparse]
    rfl
  refine ⟨⟨layer.diagonals, hload, fun rc => Iff.rfl, fun t => Iff.rfl⟩,
    ⟨savedEntry ev layer, hlook, rfl, rfl, rfl, rfl, rfl, rfl, rfl, rfl⟩,
    fun ev₂ st₂ l₂ err hv => by rw [load_transforms, hv]⟩

/-- Witness for C1: the concrete save/load pair on a fresh store. -/
theorem claim_C1_witness :
    (evW.embed_method = layerW.scheme_embed_method
      ∧ save_transforms evW ([] : Store) layerW = Except.ok (storeW, layerW2))
    ∧ ∃ d, load_transforms evW storeW layerW2 =
        Except.ok (d, layerW.on_bias, layerW.output_rotations)
      ∧ (∀ rc, rc ∈ d.map Prod.fst ↔ rc ∈ layerW.diagonals.map Prod.fst)
      ∧ (∀ t, t ∈ diagTriples d ↔ t ∈ diagTriples layerW.diagonals) :=
  ⟨⟨rfl, by rfl⟩,
    (claim_C1_save_load_roundtrip evW [] layerW storeW layerW2 rfl
      (by rfl)).1⟩
